import Mathlib

/-!
Verification of the NVP game engine (`src/bot.py`).

The repository is a Telegram bot implementing a two-player digit-guessing
duel.  The game core is embedded here shallowly: the global `GAMES` dict
becomes an association list `Store` from chat id to `Game`; each command
handler becomes a pure function from the store (plus the caller's identity
and arguments) to either a structured failure or an updated store together
with a result payload.  Transport-level concerns (private/group chat
routing, argument-count checks, message rendering) are outside the modeled
core, exactly as in the specification's scope.

Python behaviors are modeled faithfully:
  - dict `.get` returning `None` for absent keys is `Option`-valued lookup;
  - the secrets dict maps a player either to `None` (joined, no secret yet)
    or to a string, so its values are `Option String` and the code's
    `secrets.get(uid) is None` flattens absent and `None` alike;
  - Python truthiness of `secrets.get(pid)` (used in the `all(...)` gate)
    is false for `None` and for the empty string;
  - places where Python would raise an uncaught exception (IndexError on
    `players[turn_index]` or `[...][0]`, KeyError on `secrets[opponent]`)
    return an explicit `Err.crash`;
  - `str.isdigit` is true in Python for every character whose Unicode
    Numeric_Type is Decimal or Digit; the model lists the ASCII digits
    plus the non-ASCII digit blocks exercised here (superscript,
    subscript, Arabic-Indic, Extended Arabic-Indic, Devanagari, Bengali
    and fullwidth digits).  Every listed character is isdigit-true in
    Python, so the model under-approximates Python's test only on digit
    scripts outside this fragment, none of which occurs below.
Error constructors are named after the specification's failure taxonomy;
where the code issues the same user-facing message for two distinct causes
(absent session vs finished session) the embedding records the cause, since
the observable reply text is identical in both branches of the source.
-/

namespace NVP

/-- Python's per-character `str.isdigit` test on a documented fragment of
its Unicode table.  Python accepts every character with Numeric_Type
Decimal or Digit; listed here are the ASCII digits and the non-ASCII digit
blocks relevant to this development: superscript digits (U+00B2, U+00B3,
U+00B9, U+2070, U+2074-U+2079), subscript digits (U+2080-U+2089),
Arabic-Indic (U+0660-U+0669), Extended Arabic-Indic (U+06F0-U+06F9),
Devanagari (U+0966-U+096F), Bengali (U+09E6-U+09EF) and fullwidth digits
(U+FF10-U+FF19).  Every listed character is isdigit-true in Python. -/
def isdigitChar (c : Char) : Bool :=
  ('0' ≤ c && c ≤ '9') ||
  (0xB2 ≤ c.toNat && c.toNat ≤ 0xB3) || c.toNat = 0xB9 ||
  (0x660 ≤ c.toNat && c.toNat ≤ 0x669) ||
  (0x6F0 ≤ c.toNat && c.toNat ≤ 0x6F9) ||
  (0x966 ≤ c.toNat && c.toNat ≤ 0x96F) ||
  (0x9E6 ≤ c.toNat && c.toNat ≤ 0x9EF) ||
  c.toNat = 0x2070 || (0x2074 ≤ c.toNat && c.toNat ≤ 0x2079) ||
  (0x2080 ≤ c.toNat && c.toNat ≤ 0x2089) ||
  (0xFF10 ≤ c.toNat && c.toNat ≤ 0xFF19)

/-- Python `s.isdigit()`: non-empty and every character a digit. -/
def pyIsdigit (s : List Char) : Bool := !s.isEmpty && s.all isdigitChar

/-- `valid_secret` from `bot.py`: 4 digits, no `'0'`, no repeats (the
source's `digits = list(num)` is `num.toList`, and `len(set(digits)) != 4`
is modeled by deduplicated length). -/
def valid_secret (num : String) : Bool :=
  if !pyIsdigit num.toList || num.toList.length ≠ 4 then false
  else if num.toList.contains '0' then false
  else if num.toList.dedup.length ≠ 4 then false
  else true

/-- `compare_guess` from `bot.py`: `values` counts guess characters that
occur anywhere in the secret, `positions` counts indices `0..3` where the
two strings agree.  Python indexes `guess[i]`/`secret[i]` directly and
would raise past the end; the two distinct defaults make an out-of-range
index never count as a match, and every call site guarantees length 4. -/
def compare_guess (secret guess : List Char) : Nat × Nat :=
  (guess.countP (fun d => secret.contains d),
   (List.range 4).countP (fun i => guess.getD i '#' == secret.getD i '$'))

/-- The `correct_pos_digits` list built in `guess`: the guess characters at
indices where guess and secret agree, in index order. -/
def correct_pos_digits (secret guess : List Char) : List Char :=
  ((List.range 4).filter (fun i => guess.getD i '#' == secret.getD i '$')).map
    (fun i => guess.getD i '#')

/-- One game: the value stored in `GAMES` for a chat id.  `secrets` maps a
joined player to `none` until a secret is committed. -/
structure Game where
  players : List Nat
  player_names : List (Nat × String)
  secrets : List (Nat × Option String)
  turn_index : Nat
  finished : Bool
deriving DecidableEq, Repr

/-- The global `GAMES` table: insertion-ordered association list keyed by
chat id (Python dicts preserve insertion order, which the secret-routing
scan relies on). -/
abbrev Store := List (Nat × Game)

/-- Failure kinds, one per rejecting branch of the source, named after the
specification's taxonomy.  `crash` marks states where Python would raise an
uncaught IndexError/KeyError. -/
inductive Err where
  | SessionAlreadyActive
  | NoSession
  | SessionFinished
  | AlreadyJoined
  | SessionFull
  | UnknownPlayer
  | InvalidSecret
  | NoGameAwaitingSecret
  | NotInProgress
  | NotYourTurn
  | NoGameToCancel
  | crash
deriving DecidableEq, Repr

/-- Dict lookup (`d.get(k)`). -/
def dictGet {α : Type} (d : List (Nat × α)) (k : Nat) : Option α :=
  (d.find? (fun p => p.1 == k)).map (fun p => p.2)

/-- Dict update (`d[k] = v`): replace in place if the key exists, else
append — the order Python dicts preserve. -/
def dictSet {α : Type} (d : List (Nat × α)) (k : Nat) (v : α) : List (Nat × α) :=
  match d with
  | [] => [(k, v)]
  | (k', v') :: rest =>
      if k' = k then (k, v) :: rest else (k', v') :: dictSet rest k v

/-- Dict removal (`d.pop(k, None)`). -/
def dictRemove {α : Type} (d : List (Nat × α)) (k : Nat) : List (Nat × α) :=
  d.filter (fun p => p.1 ≠ k)

/-- `game['secrets'].get(uid)` flattened: `none` when the key is absent or
maps to Python `None`. -/
def secretsGet (g : Game) (uid : Nat) : Option String :=
  (dictGet g.secrets uid).join

/-- Python truthiness of `secrets.get(pid)`: `None` and `""` are falsy. -/
def pyTruthy : Option String → Bool
  | none => false
  | some s => !s.isEmpty

/-- The fresh game `newgame` stores. -/
def freshGame : Game :=
  { players := [], player_names := [], secrets := [], turn_index := 0, finished := false }

/-- Are all joined players' secrets set — the `all(game['secrets'].get(pid)
for pid in game['players'])` gate. -/
def allSecretsSet (g : Game) : Bool :=
  g.players.all (fun pid => pyTruthy (secretsGet g pid))

/-- `newgame` handler (group-chat path): reject while an unfinished game is
stored under the chat id, otherwise store a fresh game. -/
def newgame (store : Store) (chat_id : Nat) : Except Err Store :=
  match dictGet store chat_id with
  | some g => if !g.finished then .error .SessionAlreadyActive
              else .ok (dictSet store chat_id freshGame)
  | none => .ok (dictSet store chat_id freshGame)

/-- `join` handler (group-chat path).  The source's single
`chat_id not in GAMES or GAMES[chat_id].get('finished', True)` test is
split by cause: absent key vs finished game (same reply text in the
source). -/
def join (store : Store) (chat_id uid : Nat) (name : String) : Except Err Store :=
  match dictGet store chat_id with
  | none => .error .NoSession
  | some g =>
    if g.finished then .error .SessionFinished
    else if g.players.contains uid then .error .AlreadyJoined
    else if 2 ≤ g.players.length then .error .SessionFull
    else .ok (dictSet store chat_id
      { g with players := g.players ++ [uid],
               player_names := dictSet g.player_names uid name,
               secrets := dictSet g.secrets uid none })

/-- The scan predicate of the `secret` handler: games where the caller is a
player, the game is unfinished, and the caller's secret is still unset. -/
def awaitsSecretOf (uid : Nat) (p : Nat × Game) : Bool :=
  p.2.players.contains uid && !p.2.finished && (secretsGet p.2 uid).isNone

/-- `secret` handler (private-chat path): validate, scan the store in
iteration order for a game awaiting this player's secret, record the secret
in the first such game.  Returns the updated store and the chosen game's
chat id. -/
def commitSecret (store : Store) (uid : Nat) (num : String) : Except Err (Store × Nat) :=
  if !valid_secret num then .error .InvalidSecret
  else
    match store.filter (awaitsSecretOf uid) with
    | [] => .error .NoGameAwaitingSecret
    | (gid, g) :: _ =>
        .ok (dictSet store gid { g with secrets := dictSet g.secrets uid (some num) }, gid)

/-- Result payload of a successful `guess`: either a win announcement for
the guessing player or a continuation naming the player now on turn; both
carry `values`, `positions` and the correctly-placed digits. -/
inductive GuessOutcome where
  | win (winner values positions : Nat) (digits : List Char)
  | next (nextPlayer values positions : Nat) (digits : List Char)
deriving DecidableEq, Repr

/-- `guess` handler (group-chat path), check for check after the source:
active game, caller is a player, guess well-formed, both secrets set, turn
check; then score against the opponent's secret, finish on `positions ==
4`, otherwise flip the turn. -/
def guess (store : Store) (chat_id uid : Nat) (guess_num : String) :
    Except Err (Store × GuessOutcome) :=
  match dictGet store chat_id with
  | none => .error .NoSession
  | some g =>
    if g.finished then .error .SessionFinished
    else if !g.players.contains uid then .error .UnknownPlayer
    else if !valid_secret guess_num then .error .InvalidSecret
    else if !allSecretsSet g then .error .NotInProgress
    else
      match g.players[g.turn_index]? with
      | none => .error .crash
      | some current =>
        if uid ≠ current then .error .NotYourTurn
        else
          match g.players.filter (fun pid => pid ≠ uid) with
          | [] => .error .crash
          | opponent :: _ =>
            match secretsGet g opponent with
            | none => .error .crash
            | some opponent_secret =>
              if (compare_guess opponent_secret.toList guess_num.toList).2 = 4 then
                .ok (dictSet store chat_id { g with finished := true },
                     .win uid (compare_guess opponent_secret.toList guess_num.toList).1
                       (compare_guess opponent_secret.toList guess_num.toList).2
                       (correct_pos_digits opponent_secret.toList guess_num.toList))
              else
                match g.players[1 - g.turn_index]? with
                | none => .error .crash
                | some nextP =>
                    .ok (dictSet store chat_id { g with turn_index := 1 - g.turn_index },
                         .next nextP (compare_guess opponent_secret.toList guess_num.toList).1
                           (compare_guess opponent_secret.toList guess_num.toList).2
                           (correct_pos_digits opponent_secret.toList guess_num.toList))

/-- `cancel` handler (group-chat path): reject on an absent key, otherwise
drop the entry. -/
def cancel (store : Store) (chat_id : Nat) : Except Err Store :=
  match dictGet store chat_id with
  | none => .error .NoGameToCancel
  | some _ => .ok (dictRemove store chat_id)

/-- The specification's `winner` attribute, as an abstraction of the stored
state: the source keeps no winner field, but a winning guess sets
`finished` without flipping the turn, so the winner is the player seated at
`turn_index` of a finished game (cancelled games are removed outright, so a
stored finished game was always finished by a win). -/
def winner (g : Game) : Option Nat :=
  if g.finished then g.players[g.turn_index]? else none

/-- A reachable mid-match game: players 7 and 8 joined in that order, both
secrets committed, player 7 on turn. -/
def gInProgress : Game :=
  { players := [7, 8], player_names := [(7, "P1"), (8, "P2")],
    secrets := [(7, some "1234"), (8, some "5678")], turn_index := 0, finished := false }

/-- Store holding the mid-match game under chat id 1. -/
def sInProgress : Store := [(1, gInProgress)]

/-- The game after player 7 wins with the guess "5678". -/
def gDone : Game := { gInProgress with finished := true }

/-- Store holding the finished game under chat id 1. -/
def sDone : Store := [(1, gDone)]

/-- A reachable game still awaiting player 8's secret. -/
def gAwaiting : Game :=
  { players := [7, 8], player_names := [(7, "P1"), (8, "P2")],
    secrets := [(7, some "1234"), (8, none)], turn_index := 0, finished := false }

/-- Store holding the awaiting-secrets game under chat id 2. -/
def sAwaiting : Store := [(2, gAwaiting)]

/-! Supporting lemmas about characters, deduplication and the dictionary
operations. -/

theorem char_toNat_le {a b : Char} : a ≤ b ↔ a.toNat ≤ b.toNat := Iff.rfl

theorem char_toNat_ne {a b : Char} (h : a ≠ b) : a.toNat ≠ b.toNat :=
  fun hh => h (Char.eq_of_val_eq (UInt32.toNat.inj hh))

/-- A character is a nonzero ASCII digit exactly when it lies between `'1'`
and `'9'`. -/
theorem digit_nonzero_iff (c : Char) :
    (('0' ≤ c ∧ c ≤ '9') ∧ c ≠ '0') ↔ ('1' ≤ c ∧ c ≤ '9') := by
  constructor
  · rintro ⟨⟨hl, hr⟩, hne⟩
    have g1 : (48 : Nat) ≤ c.toNat := char_toNat_le.mp hl
    have g3 : c.toNat ≠ 48 := fun hh => (char_toNat_ne hne) (by simpa using hh)
    exact ⟨char_toNat_le.mpr (show (49 : Nat) ≤ c.toNat by omega), hr⟩
  · rintro ⟨hl, hr⟩
    have g1 : (49 : Nat) ≤ c.toNat := char_toNat_le.mp hl
    refine ⟨⟨char_toNat_le.mpr (show (48 : Nat) ≤ c.toNat by omega), hr⟩, ?_⟩
    intro hh
    subst hh
    simp at g1

/-- Branch-by-branch reading of `valid_secret`. -/
theorem valid_secret_iff (s : String) :
    valid_secret s = true ↔
      (pyIsdigit s.toList = true ∧ s.toList.length = 4 ∧
       ¬ ('0' ∈ s.toList) ∧ s.toList.dedup.length = 4) := by
  unfold valid_secret
  split_ifs with h1 h2 h3
  · simp only [Bool.or_eq_true, Bool.not_eq_true', decide_eq_true_eq] at h1
    simp only [false_iff]
    rintro ⟨hd, hl, _, _⟩
    rcases h1 with h | h
    · rw [hd] at h; cases h
    · exact h hl
  · simp_all
  · simp_all
  · simp_all

/-- For a 4-element list, having 4 distinct elements is exactly `Nodup`. -/
theorem dedup_length_eq_iff {l : List Char} (h : l.length = 4) :
    l.dedup.length = 4 ↔ l.Nodup := by
  constructor
  · intro hd
    have hsub := List.dedup_sublist l
    have heq := hsub.eq_of_length (by omega)
    rw [← heq]
    exact l.nodup_dedup
  · intro hn
    rw [List.dedup_eq_self.mpr hn, h]

/-- On the ASCII plane the digit test collapses to the `'0'`-`'9'` range:
all the non-ASCII blocks of `isdigitChar` lie above code point 128. -/
theorem isdigitChar_ascii {c : Char} (h : c.toNat < 128) :
    isdigitChar c = true ↔ ('0' ≤ c ∧ c ≤ '9') := by
  have e0 : ('0' : Char).toNat = 48 := rfl
  have e9 : ('9' : Char).toNat = 57 := rfl
  have hle : ∀ a b : Char, (a ≤ b) = (a.toNat ≤ b.toNat) :=
    fun a b => propext char_toNat_le
  unfold isdigitChar
  simp only [Bool.or_eq_true, Bool.and_eq_true, decide_eq_true_eq, hle, e0, e9]
  omega

/-- Restricted to ASCII input, `valid_secret` does implement the
documented rule: 4 characters, each between `'1'` and `'9'`, pairwise
distinct.  Outside ASCII the two sides diverge (see `nvp_C1`). -/
theorem valid_secret_ascii_iff (s : String)
    (hascii : ∀ c ∈ s.toList, c.toNat < 128) :
    valid_secret s = true ↔
      (s.toList.length = 4 ∧ (∀ c ∈ s.toList, '1' ≤ c ∧ c ≤ '9') ∧ s.toList.Nodup) := by
  rw [valid_secret_iff]
  constructor
  · rintro ⟨hd, hlen, h0, hdd⟩
    simp only [pyIsdigit, Bool.and_eq_true, List.all_eq_true] at hd
    refine ⟨hlen, fun c hc => ?_, (dedup_length_eq_iff hlen).mp hdd⟩
    have hdc := (isdigitChar_ascii (hascii c hc)).mp (hd.2 c hc)
    exact (digit_nonzero_iff c).mp ⟨hdc, fun he => h0 (he ▸ hc)⟩
  · rintro ⟨hlen, hch, hnd⟩
    refine ⟨?_, hlen, ?_, (dedup_length_eq_iff hlen).mpr hnd⟩
    · simp only [pyIsdigit, Bool.and_eq_true, List.all_eq_true]
      have hne : s.toList ≠ [] := by intro h; rw [h] at hlen; simp at hlen
      refine ⟨by simpa [List.isEmpty_iff] using hne, fun c hc => ?_⟩
      have hd := (digit_nonzero_iff c).mpr (hch c hc)
      exact (isdigitChar_ascii (hascii c hc)).mpr hd.1
    · intro h0
      have hd := (digit_nonzero_iff '0').mpr (hch '0' h0)
      exact hd.2 rfl

/-- A list of length 4 is literally a 4-element list. -/
theorem length_eq_four {α : Type} {l : List α} (h : l.length = 4) :
    ∃ a b c d, l = [a, b, c, d] := by
  rcases l with _ | ⟨a, l⟩; · simp at h
  rcases l with _ | ⟨b, l⟩; · simp at h
  rcases l with _ | ⟨c, l⟩; · simp at h
  rcases l with _ | ⟨d, l⟩; · simp at h
  rcases l with _ | ⟨e, l⟩
  · exact ⟨a, b, c, d, rfl⟩
  · simp at h

theorem dictGet_set_self {α : Type} (d : List (Nat × α)) (k : Nat) (v : α) :
    dictGet (dictSet d k v) k = some v := by
  induction d with
  | nil => simp [dictGet, dictSet]
  | cons p rest ih =>
    by_cases h : p.1 = k
    · simp [dictGet, dictSet, h]
    · simp only [dictSet]
      rw [if_neg h]
      simpa [dictGet, List.find?_cons, h] using ih

theorem dictGet_set_ne {α : Type} (d : List (Nat × α)) (k k' : Nat) (v : α)
    (h : k' ≠ k) : dictGet (dictSet d k v) k' = dictGet d k' := by
  induction d with
  | nil => simp [dictGet, dictSet, Ne.symm h]
  | cons p rest ih =>
    by_cases hp : p.1 = k
    · subst hp
      simp [dictGet, dictSet, Ne.symm h]
    · simp only [dictSet]
      rw [if_neg hp]
      by_cases hp' : p.1 = k'
      · simp [dictGet, hp']
      · simpa [dictGet, List.find?_cons, hp'] using ih

theorem dictGet_remove_self {α : Type} (d : List (Nat × α)) (k : Nat) :
    dictGet (dictRemove d k) k = none := by
  induction d with
  | nil => simp [dictGet, dictRemove]
  | cons p rest ih =>
    by_cases h : p.1 = k
    · simp [dictGet, dictRemove, h, ih]
    · simp [dictGet, dictRemove, List.filter_cons, h, ih]

/-- In a duplicate-free association list, membership determines lookup. -/
theorem dictGet_of_mem_nodup {α : Type} {d : List (Nat × α)} {k : Nat} {v : α}
    (hk : (d.map Prod.fst).Nodup) (hm : (k, v) ∈ d) : dictGet d k = some v := by
  induction d with
  | nil => cases hm
  | cons p rest ih =>
    rcases List.mem_cons.mp hm with h | h
    · subst h
      simp [dictGet]
    · have hp : p.1 ≠ k := by
        intro he
        have : k ∈ rest.map Prod.fst := List.mem_map.mpr ⟨(k, v), h, rfl⟩
        rw [List.map_cons, List.nodup_cons, he] at hk
        exact hk.1 this
      have := ih (by rw [List.map_cons, List.nodup_cons] at hk; exact hk.2) h
      simpa [dictGet, List.find?_cons, hp] using this

/-- The head of a filtered list belongs to the list and satisfies the
predicate. -/
theorem filter_head_mem {α : Type} {l : List α} {p : α → Bool} {x : α} {rest : List α}
    (h : l.filter p = x :: rest) : x ∈ l ∧ p x = true := by
  have hx : x ∈ l.filter p := by rw [h]; exact List.mem_cons_self x rest
  exact ⟨(List.mem_filter.mp hx).1, (List.mem_filter.mp hx).2⟩

/-- Setting one player's secret leaves every other player's secret
unchanged. -/
theorem secretsGet_set_ne (g : Game) (uid p : Nat) (v : Option String)
    (h : p ≠ uid) :
    secretsGet { g with secrets := dictSet g.secrets uid v } p = secretsGet g p := by
  simp [secretsGet, dictGet_set_ne g.secrets uid p v h]

/-! The claims, settled. -/

/-- C2: in an IN_PROGRESS session (unfinished, caller a member, both
secrets set, caller on turn), a guess scoring `positions == 4` against the
opponent's committed secret transitions the session to FINISHED, returns a
result flagged as a win for the guessing player, and the `winner`
abstraction of the new state is the guessing player.  On the error-free
path the store returned is the only mutation, mirroring the in-place
update of the source. -/
theorem nvp_C2 (store : Store) (cid uid opp : Nat) (opprest : List Nat) (g : Game)
    (os code : String)
    (hlook : dictGet store cid = some g)
    (hfin : g.finished = false)
    (hmem : g.players.contains uid = true)
    (hvalid : valid_secret code = true)
    (hall : allSecretsSet g = true)
    (hcur : g.players[g.turn_index]? = some uid)
    (hopp : g.players.filter (fun pid => pid ≠ uid) = opp :: opprest)
    (hosec : secretsGet g opp = some os)
    (hwin : (compare_guess os.toList code.toList).2 = 4) :
    guess store cid uid code =
      .ok (dictSet store cid { g with finished := true },
           .win uid (compare_guess os.toList code.toList).1 4
             (correct_pos_digits os.toList code.toList)) ∧
    winner { g with finished := true } = some uid := by
  constructor
  · unfold guess
    rw [hlook]
    simp only [hfin, hmem, hvalid, hall, hcur, hopp, hosec, Bool.not_true,
      Bool.false_eq_true, if_false]
    rw [if_pos hwin, hwin]
    simp
  · simp [winner, hcur]

/-- C8: in an IN_PROGRESS session, a successful guess with
`positions < 4` flips `turn_index` to `1 - turn_index` and returns a
continuation result naming the player now on turn; the stored game changes
in no other field. -/
theorem nvp_C8 (store : Store) (cid uid opp nxt : Nat) (opprest : List Nat) (g : Game)
    (os code : String)
    (hlook : dictGet store cid = some g)
    (hfin : g.finished = false)
    (hmem : g.players.contains uid = true)
    (hvalid : valid_secret code = true)
    (hall : allSecretsSet g = true)
    (hcur : g.players[g.turn_index]? = some uid)
    (hopp : g.players.filter (fun pid => pid ≠ uid) = opp :: opprest)
    (hosec : secretsGet g opp = some os)
    (hnowin : (compare_guess os.toList code.toList).2 ≠ 4)
    (hnext : g.players[1 - g.turn_index]? = some nxt) :
    guess store cid uid code =
      .ok (dictSet store cid { g with turn_index := 1 - g.turn_index },
           .next nxt (compare_guess os.toList code.toList).1
             (compare_guess os.toList code.toList).2
             (correct_pos_digits os.toList code.toList)) := by
  unfold guess
  rw [hlook]
  simp only [hfin, hmem, hvalid, hall, hcur, hopp, hosec, Bool.not_true,
    Bool.false_eq_true, if_false]
  rw [if_neg (by simp), if_neg hnowin]
  simp only [hnext]

/-- C10: on a winning guess the only state mutation is the `finished`
flag: the new game equals the old one on `players`, `player_names`,
`secrets` and `turn_index` (which still holds the winner's seat), and the
`Game` state carries no winner field at all — the record fields listed here
are exhaustive. -/
theorem nvp_C10 (store : Store) (cid uid opp : Nat) (opprest : List Nat) (g : Game)
    (os code : String)
    (hlook : dictGet store cid = some g)
    (hfin : g.finished = false)
    (hmem : g.players.contains uid = true)
    (hvalid : valid_secret code = true)
    (hall : allSecretsSet g = true)
    (hcur : g.players[g.turn_index]? = some uid)
    (hopp : g.players.filter (fun pid => pid ≠ uid) = opp :: opprest)
    (hosec : secretsGet g opp = some os)
    (hwin : (compare_guess os.toList code.toList).2 = 4) :
    ∃ gf : Game,
      guess store cid uid code =
        .ok (dictSet store cid gf,
             .win uid (compare_guess os.toList code.toList).1 4
               (correct_pos_digits os.toList code.toList)) ∧
      gf.players = g.players ∧ gf.player_names = g.player_names ∧
      gf.secrets = g.secrets ∧ gf.turn_index = g.turn_index ∧
      gf.finished = true ∧ gf.players[gf.turn_index]? = some uid := by
  refine ⟨{ g with finished := true }, ?_, rfl, rfl, rfl, rfl, rfl, hcur⟩
  unfold guess
  rw [hlook]
  simp only [hfin, hmem, hvalid, hall, hcur, hopp, hosec, Bool.not_true,
    Bool.false_eq_true, if_false]
  rw [if_pos hwin, hwin]
  simp

/-- C4 (amended): in an IN_PROGRESS session, a guess with a well-formed
code by a participant other than the player on turn fails with
`NotYourTurn`; the error carries no updated store, so no state is mutated.
(The claim's original form without the well-formedness condition is
refuted by `nvp_C4_counterexample`.) -/
theorem nvp_C4 (store : Store) (cid uid cur : Nat) (g : Game) (code : String)
    (hlook : dictGet store cid = some g)
    (hfin : g.finished = false)
    (hmem : g.players.contains uid = true)
    (hvalid : valid_secret code = true)
    (hall : allSecretsSet g = true)
    (hcur : g.players[g.turn_index]? = some cur)
    (hne : uid ≠ cur) :
    guess store cid uid code = .error .NotYourTurn := by
  unfold guess
  rw [hlook]
  simp only [hfin, hmem, hvalid, hall, hcur, Bool.not_true,
    Bool.false_eq_true, if_false]
  rw [if_pos hne]

/-- C4 counterexample: an off-turn participant's malformed guess fails
with `InvalidSecret`, not `NotYourTurn` — the validity check precedes the
turn check in the source. -/
theorem nvp_C4_counterexample :
    guess sInProgress 1 8 "1123" = .error .InvalidSecret ∧
      Err.InvalidSecret ≠ Err.NotYourTurn := by
  constructor
  · rfl
  · decide

/-- C5 (amended): in an unfinished session where some joined player's
secret is missing, a guess by a participant with a well-formed code fails
with `NotInProgress`.  (The claim's original form quantifies over every
non-IN_PROGRESS phase and every call; `nvp_C5_counterexample` shows a
FINISHED session fails with `SessionFinished` instead.) -/
theorem nvp_C5 (store : Store) (cid uid : Nat) (g : Game) (code : String)
    (hlook : dictGet store cid = some g)
    (hfin : g.finished = false)
    (hmem : g.players.contains uid = true)
    (hvalid : valid_secret code = true)
    (hall : allSecretsSet g = false) :
    guess store cid uid code = .error .NotInProgress := by
  unfold guess
  rw [hlook]
  simp [hfin, hmem, hvalid, hall]
  simpa using hmem

/-- C5 counterexample: a guess in a FINISHED session fails with
`SessionFinished`, not `NotInProgress`. -/
theorem nvp_C5_counterexample :
    guess sDone 1 7 "5678" = .error .SessionFinished ∧
      Err.SessionFinished ≠ Err.NotInProgress := by
  constructor
  · rfl
  · decide

/-- Inversion of a successful `commitSecret`: the chosen game heads the
eligibility scan and the store is updated at its key. -/
theorem commitSecret_ok_inv {store : Store} {uid : Nat} {num : String} {s' : Store} {gid : Nat}
    (h : commitSecret store uid num = .ok (s', gid)) :
    ∃ gsel rest, store.filter (awaitsSecretOf uid) = (gid, gsel) :: rest ∧
      awaitsSecretOf uid (gid, gsel) = true ∧ (gid, gsel) ∈ store ∧
      s' = dictSet store gid { gsel with secrets := dictSet gsel.secrets uid (some num) } := by
  unfold commitSecret at h
  by_cases hv : valid_secret num = true
  · rw [if_neg (by simp [hv])] at h
    cases hf : store.filter (awaitsSecretOf uid) with
    | nil => rw [hf] at h; cases h
    | cons p rest =>
      obtain ⟨gid', gsel⟩ := p
      rw [hf] at h
      simp only [Except.ok.injEq, Prod.mk.injEq] at h
      obtain ⟨h1, h2⟩ := h
      subst h2
      exact ⟨gsel, rest, rfl, (filter_head_mem hf).2, (filter_head_mem hf).1, h1.symm⟩
  · rw [if_pos (by simp [hv])] at h
    cases h

/-- Inversion of a successful `guess`: the store is updated at the chat id
with a game that differs from the stored one at most in `turn_index` and
`finished`. -/
theorem guess_ok_inv {store : Store} {cid uid : Nat} {code : String}
    {s' : Store} {r : GuessOutcome}
    (h : guess store cid uid code = .ok (s', r)) :
    ∃ g gnew, dictGet store cid = some g ∧ s' = dictSet store cid gnew ∧
      gnew.players = g.players ∧ gnew.player_names = g.player_names ∧
      gnew.secrets = g.secrets := by
  unfold guess at h
  split at h
  · cases h
  · rename_i g heq
    split at h; · cases h
    split at h; · cases h
    split at h; · cases h
    split at h; · cases h
    split at h
    · cases h
    split at h; · cases h
    split at h
    · cases h
    split at h
    · cases h
    split at h
    · simp only [Except.ok.injEq, Prod.mk.injEq] at h
      exact ⟨g, { g with finished := true }, heq, h.1.symm, rfl, rfl, rfl⟩
    · split at h
      · cases h
      · simp only [Except.ok.injEq, Prod.mk.injEq] at h
        exact ⟨g, { g with turn_index := 1 - g.turn_index }, heq, h.1.symm, rfl, rfl, rfl⟩

/-- C6: `create` fails with `SessionAlreadyActive` while an unfinished
session is stored under the key (the error path returns no store, so the
store is unchanged); after the stored session is finished, or after a
successful `cancel`, `create` succeeds and stores a fresh session, which is
in FORMING (no players, not finished). -/
theorem nvp_C6 (store : Store) (cid : Nat) :
    (∀ g, dictGet store cid = some g → g.finished = false →
        newgame store cid = .error .SessionAlreadyActive) ∧
    (∀ g, dictGet store cid = some g → g.finished = true →
        newgame store cid = .ok (dictSet store cid freshGame)) ∧
    (∀ s', cancel store cid = .ok s' →
        newgame s' cid = .ok (dictSet s' cid freshGame)) ∧
    freshGame.players = [] ∧ freshGame.finished = false := by
  refine ⟨?_, ?_, ?_, rfl, rfl⟩
  · intro g h hf
    unfold newgame
    rw [h]
    simp [hf]
  · intro g h hf
    unfold newgame
    rw [h]
    simp [hf]
  · intro s' h
    unfold cancel at h
    cases hx : dictGet store cid with
    | none => rw [hx] at h; cases h
    | some g =>
      rw [hx] at h
      simp only [Except.ok.injEq] at h
      subst h
      unfold newgame
      rw [dictGet_remove_self]

/-- C3 (amended): in a FINISHED session, `guess` and `join` fail with
`SessionFinished` (error paths return no store, leaving the session
unchanged); `commit_secret` never selects a finished session — any
successful commit targets a different key and leaves this entry intact —
and when the finished session is the whole store a commit fails with the
source's generic no-active-game kind rather than `SessionFinished`
(refuted original form: `nvp_C3_counterexample`). -/
theorem nvp_C3 (store : Store) (cid : Nat) (g : Game)
    (hkeys : (store.map Prod.fst).Nodup)
    (hlook : dictGet store cid = some g)
    (hfin : g.finished = true) :
    (∀ uid code, guess store cid uid code = .error .SessionFinished) ∧
    (∀ uid name, join store cid uid name = .error .SessionFinished) ∧
    (∀ uid num s' gid, commitSecret store uid num = .ok (s', gid) →
        gid ≠ cid ∧ dictGet s' cid = some g) ∧
    (store = [(cid, g)] → ∀ uid num, valid_secret num = true →
        commitSecret store uid num = .error .NoGameAwaitingSecret) := by
  refine ⟨?_, ?_, ?_, ?_⟩
  · intro uid code
    unfold guess
    rw [hlook]
    simp [hfin]
  · intro uid name
    unfold join
    rw [hlook]
    simp [hfin]
  · intro uid num s' gid h
    obtain ⟨gsel, rest, hf, hpred, hmem, rfl⟩ := commitSecret_ok_inv h
    have hne : gid ≠ cid := by
      intro he
      subst he
      have hx := dictGet_of_mem_nodup hkeys hmem
      rw [hlook] at hx
      injection hx with hh
      subst hh
      simp [awaitsSecretOf, hfin] at hpred
    exact ⟨hne, by rw [dictGet_set_ne _ _ _ _ (Ne.symm hne)]; exact hlook⟩
  · intro he uid num hv
    subst he
    unfold commitSecret
    rw [if_neg (by simp [hv])]
    have hx : awaitsSecretOf uid (cid, g) = false := by
      simp [awaitsSecretOf, hfin]
    simp [List.filter_cons, hx]

/-- C3 counterexample: a participant's commit against a store holding
only a FINISHED session fails with `NoGameAwaitingSecret`, not
`SessionFinished` — the source's secret scan replies with its single
not-found message and has no finished-session error. -/
theorem nvp_C3_counterexample :
    commitSecret sDone 7 "2345" = .error .NoGameAwaitingSecret ∧
      Err.NoGameAwaitingSecret ≠ Err.SessionFinished := by
  constructor
  · rfl
  · decide

/-- C7: a committed secret never changes.  The committed session is
never selected by the secret scan; any successful `commit_secret`, `join`
or `guess` leaves the player's committed secret in place under its key;
and a second commit by the same player against a store holding only this
session fails. -/
theorem nvp_C7 (store : Store) (cid p : Nat) (g : Game) (s : String)
    (hkeys : (store.map Prod.fst).Nodup)
    (hlook : dictGet store cid = some g)
    (hp : g.players.contains p = true)
    (hs : secretsGet g p = some s) :
    awaitsSecretOf p (cid, g) = false ∧
    (∀ uid num s' gid, commitSecret store uid num = .ok (s', gid) →
        ∃ g', dictGet s' cid = some g' ∧ secretsGet g' p = some s) ∧
    (∀ uid name s', join store cid uid name = .ok s' →
        ∃ g', dictGet s' cid = some g' ∧ secretsGet g' p = some s) ∧
    (∀ uid code s' r, guess store cid uid code = .ok (s', r) →
        ∃ g', dictGet s' cid = some g' ∧ secretsGet g' p = some s) ∧
    (store = [(cid, g)] → ∀ num, valid_secret num = true →
        commitSecret store p num = .error .NoGameAwaitingSecret) := by
  refine ⟨by simp [awaitsSecretOf, hs], ?_, ?_, ?_, ?_⟩
  · intro uid num s' gid h
    obtain ⟨gsel, rest, hf, hpred, hmem, rfl⟩ := commitSecret_ok_inv h
    by_cases he : gid = cid
    · subst he
      have hx := dictGet_of_mem_nodup hkeys hmem
      rw [hlook] at hx
      injection hx with hh
      subst hh
      have hup : uid ≠ p := by
        intro hup
        subst hup
        simp [awaitsSecretOf, hs] at hpred
      refine ⟨_, dictGet_set_self _ _ _, ?_⟩
      rw [secretsGet_set_ne _ _ _ _ (Ne.symm hup)]
      exact hs
    · refine ⟨g, ?_, hs⟩
      rw [dictGet_set_ne _ _ _ _ (Ne.symm he)]
      exact hlook
  · intro uid name s' h
    unfold join at h
    split at h; · cases h
    rename_i g2 heq
    rw [hlook] at heq
    injection heq with heq
    subst heq
    split at h; · cases h
    split at h; · cases h
    split at h; · cases h
    injection h with h
    subst h
    have hup : uid ≠ p := by
      intro hup
      subst hup
      rename_i hcontains _
      exact hcontains hp
    refine ⟨_, dictGet_set_self _ _ _, ?_⟩
    show (dictGet (dictSet g.secrets uid none) p).join = some s
    rw [dictGet_set_ne g.secrets uid p none (Ne.symm hup)]
    exact hs
  · intro uid code s' r h
    obtain ⟨g0, gnew, hg0, rfl, _, _, hsec⟩ := guess_ok_inv h
    rw [hlook] at hg0
    injection hg0 with hh
    subst hh
    refine ⟨gnew, dictGet_set_self _ _ _, ?_⟩
    simp only [secretsGet, hsec]
    exact hs
  · intro he num hv
    subst he
    unfold commitSecret
    rw [if_neg (by simp [hv])]
    have hx : awaitsSecretOf p (cid, g) = false := by
      simp [awaitsSecretOf, hs]
    simp [List.filter_cons, hx]

/-- C1: the claim fails on the code at the input `"¹²³⁴"` (superscript
one, two, three, four).  Python's `str.isdigit` is true for superscript
digits, the string has 4 characters, none is the ASCII `'0'`, and all four
are distinct, so `valid_secret` accepts it; yet its characters are not
between `'1'` and `'9'`, which the claim — matching the code's own prompt
"digits 1-9, no repeats, no 0" and its `SECRET_RE` regex over `[1-9]` —
requires it to reject.  The code deviates from its documented intent; on
ASCII input the claimed equivalence does hold (`valid_secret_ascii_iff`). -/
theorem nvp_C1 :
    valid_secret "¹²³⁴" = true ∧
    ¬("¹²³⁴".toList.length = 4 ∧ (∀ c ∈ "¹²³⁴".toList, '1' ≤ c ∧ c ≤ '9') ∧
      "¹²³⁴".toList.Nodup) := by
  constructor
  · decide
  · decide

/-- C9: for 4-character strings, `compare_guess` satisfies
`positions ≤ values`: every exact positional match also counts toward the
membership count. -/
theorem nvp_C9 (secret codeL : List Char)
    (hs : secret.length = 4) (hg : codeL.length = 4) :
    (compare_guess secret codeL).2 ≤ (compare_guess secret codeL).1 := by
  obtain ⟨a, b, c, d, rfl⟩ := length_eq_four hs
  obtain ⟨e, f, i, j, rfl⟩ := length_eq_four hg
  simp only [compare_guess, List.range_succ, List.range_zero, List.countP_cons,
    List.countP_nil, List.countP_append, List.getD_cons_zero, List.getD_cons_succ]
  norm_num
  split_ifs <;> simp_all

/-- Witness for C2 at the spec's end-to-end scenario. -/
theorem nvp_C2_witness :
    guess sInProgress 1 7 "5678" =
      .ok (dictSet sInProgress 1 { gInProgress with finished := true },
           .win 7 (compare_guess "5678".toList "5678".toList).1 4
             (correct_pos_digits "5678".toList "5678".toList)) ∧
    winner { gInProgress with finished := true } = some 7 :=
  nvp_C2 sInProgress 1 7 8 [] gInProgress "5678" "5678" rfl rfl rfl (by decide)
    rfl rfl rfl rfl rfl

/-- Witness for C8 at the spec's turn-rotation scenario. -/
theorem nvp_C8_witness :
    guess sInProgress 1 7 "5679" =
      .ok (dictSet sInProgress 1 { gInProgress with turn_index := 1 - gInProgress.turn_index },
           .next 8 (compare_guess "5678".toList "5679".toList).1
             (compare_guess "5678".toList "5679".toList).2
             (correct_pos_digits "5678".toList "5679".toList)) :=
  nvp_C8 sInProgress 1 7 8 8 [] gInProgress "5678" "5679" rfl rfl rfl (by decide)
    rfl rfl rfl rfl (by decide) rfl

/-- Witness for C10 at the winning-guess scenario. -/
theorem nvp_C10_witness :
    ∃ gf : Game,
      guess sInProgress 1 7 "5678" =
        .ok (dictSet sInProgress 1 gf,
             .win 7 (compare_guess "5678".toList "5678".toList).1 4
               (correct_pos_digits "5678".toList "5678".toList)) ∧
      gf.players = gInProgress.players ∧ gf.player_names = gInProgress.player_names ∧
      gf.secrets = gInProgress.secrets ∧ gf.turn_index = gInProgress.turn_index ∧
      gf.finished = true ∧ gf.players[gf.turn_index]? = some 7 :=
  nvp_C10 sInProgress 1 7 8 [] gInProgress "5678" "5678" rfl rfl rfl (by decide)
    rfl rfl rfl rfl rfl

/-- Witness for C4: the off-turn player guesses out of turn. -/
theorem nvp_C4_witness :
    guess sInProgress 1 8 "1234" = .error .NotYourTurn :=
  nvp_C4 sInProgress 1 8 7 gInProgress "1234" rfl rfl rfl (by decide) rfl rfl (by decide)

/-- Witness for C5: a guess while a secret is still missing. -/
theorem nvp_C5_witness :
    guess sAwaiting 2 7 "5678" = .error .NotInProgress :=
  nvp_C5 sAwaiting 2 7 gAwaiting "5678" rfl rfl rfl (by decide) rfl

/-- Witness for C6 on the concrete stores. -/
theorem nvp_C6_witness :
    newgame sInProgress 1 = .error .SessionAlreadyActive ∧
    newgame sDone 1 = .ok (dictSet sDone 1 freshGame) ∧
    newgame (dictRemove sInProgress 1) 1 =
      .ok (dictSet (dictRemove sInProgress 1) 1 freshGame) :=
  ⟨(nvp_C6 sInProgress 1).1 gInProgress rfl rfl,
   (nvp_C6 sDone 1).2.1 gDone rfl rfl,
   (nvp_C6 sInProgress 1).2.2.1 (dictRemove sInProgress 1) rfl⟩

/-- Witness for C3 on the finished game. -/
theorem nvp_C3_witness :
    guess sDone 1 7 "1234" = .error .SessionFinished ∧
    join sDone 1 9 "P3" = .error .SessionFinished ∧
    commitSecret sDone 7 "2346" = .error .NoGameAwaitingSecret :=
  ⟨(nvp_C3 sDone 1 gDone (by decide) rfl rfl).1 7 "1234",
   (nvp_C3 sDone 1 gDone (by decide) rfl rfl).2.1 9 "P3",
   (nvp_C3 sDone 1 gDone (by decide) rfl rfl).2.2.2 rfl 7 "2346" (by decide)⟩

/-- Witness for C7 on the mid-match game. -/
theorem nvp_C7_witness :
    awaitsSecretOf 7 (1, gInProgress) = false ∧
    (∃ g', dictGet (dictSet sInProgress 1 { gInProgress with finished := true }) 1 = some g' ∧
      secretsGet g' 7 = some "1234") ∧
    commitSecret sInProgress 7 "2345" = .error .NoGameAwaitingSecret :=
  ⟨(nvp_C7 sInProgress 1 7 gInProgress "1234" (by decide) rfl rfl rfl).1,
   (nvp_C7 sInProgress 1 7 gInProgress "1234" (by decide) rfl rfl rfl).2.2.2.1 7 "5678"
     (dictSet sInProgress 1 { gInProgress with finished := true })
     (.win 7 (compare_guess "5678".toList "5678".toList).1
       (compare_guess "5678".toList "5678".toList).2
       (correct_pos_digits "5678".toList "5678".toList)) rfl,
   (nvp_C7 sInProgress 1 7 gInProgress "1234" (by decide) rfl rfl rfl).2.2.2.2 rfl "2345" (by decide)⟩

/-- Witness for C9 on the spec's example pair. -/
theorem nvp_C9_witness :
    (compare_guess "5678".toList "5679".toList).2 ≤
      (compare_guess "5678".toList "5679".toList).1 :=
  nvp_C9 "5678".toList "5679".toList rfl rfl

end NVP
